import Mathlib

/-!
Verification of the comment-publishing core of the `github-action-random-proverb`
action (`src/index.ts`), as a shallow embedding in Lean 4.

The embedding follows the TypeScript source: comments fetched from the host API
become a `List Comment`, host-API calls become an explicit `ApiCall` trace,
JavaScript truthiness in the `||`-merges of `buildConfigOptions` is made explicit
on an untyped-value type `JVal`, and the helpers that live outside `src/`
(`toInt`, `getProperty`, `isValidFile` / `getConfigOptions`, `profile`) are
modelled from the specification, each marked `Modelled from the spec:` in its
doc comment.
-/

namespace Proverb

/-- A comment on the target issue / pull request, as returned by the host API
`listComments` call: its identifier, its author's login and its body. -/
structure Comment where
  id : Nat
  login : String
  body : String
  deriving DecidableEq, Repr

/-- The automation's own bot identity (`'github-actions[bot]'` in
`getCommentId`, src/index.ts line 31). -/
def botLogin : String := "github-actions[bot]"

/-- Whether a comment is bot-authored: the filter predicate
`comment.user.login === 'github-actions[bot]'` of src/index.ts line 31. -/
def isBot (c : Comment) : Bool := c.login == botLogin

/-- `getCommentId` (src/index.ts lines 20-38) applied to the comment list the
host API returned: filter to bot-authored comments, return the id of the first
one if any remain, and no identifier (`undefined`) otherwise. -/
def getCommentId (comments : List Comment) : Option Nat :=
  let res := comments.filter isBot
  if h : 0 < res.length then some (res.get ⟨0, h⟩).id else none

theorem getCommentId_eq_head (comments : List Comment) :
    getCommentId comments = ((comments.filter isBot).head?).map Comment.id := by
  unfold getCommentId
  cases hf : comments.filter isBot with
  | nil => simp
  | cons c tl => simp [hf, List.head?]

theorem getCommentId_none_iff (comments : List Comment) :
    getCommentId comments = none ↔ comments.filter isBot = [] := by
  rw [getCommentId_eq_head]
  cases h : comments.filter isBot <;> simp [h, List.head?]

theorem getCommentId_eq_none (comments : List Comment)
    (h : ∀ c ∈ comments, c.login ≠ botLogin) : getCommentId comments = none := by
  rw [getCommentId_eq_head]
  have : comments.filter isBot = [] := by
    apply List.filter_eq_nil_iff.mpr
    intro c hc
    simp [isBot, h c hc]
  simp [this]

theorem getCommentId_first (before : List Comment) (c : Comment) (after : List Comment)
    (hb : ∀ c' ∈ before, c'.login ≠ botLogin) (hc : c.login = botLogin) :
    getCommentId (before ++ c :: after) = some c.id := by
  rw [getCommentId_eq_head]
  have h1 : before.filter isBot = [] := by
    apply List.filter_eq_nil_iff.mpr
    intro x hx
    simp [isBot, hb x hx]
  have h2 : isBot c = true := by simp [isBot, hc]
  simp [List.filter_append, h1, List.filter_cons, h2]

theorem getCommentId_mem (comments : List Comment) (i : Nat)
    (h : getCommentId comments = some i) :
    ∃ c ∈ comments, c.id = i ∧ c.login = botLogin := by
  rw [getCommentId_eq_head] at h
  cases hf : comments.filter isBot with
  | nil => rw [hf] at h; simp at h
  | cons c tl =>
    rw [hf] at h
    simp [List.head?] at h
    have hcmem : c ∈ comments.filter isBot := by rw [hf]; exact List.mem_cons_self c tl
    have := List.mem_filter.mp hcmem
    refine ⟨c, this.1, h, ?_⟩
    have := this.2
    simpa [isBot] using this

/-- C3: the Comment Locator returns the identifier of the first comment in
list order whose author login is `github-actions[bot]`, returns no identifier
when no comment in the list has that author, and on the list authored by
alice, github-actions[bot], github-actions[bot] it returns the id of the
second element. -/
theorem comment_locator_first_bot :
    (∀ comments : List Comment,
        (∀ c ∈ comments, c.login ≠ botLogin) → getCommentId comments = none) ∧
    (∀ (before : List Comment) (c : Comment) (after : List Comment),
        (∀ c' ∈ before, c'.login ≠ botLogin) → c.login = botLogin →
        getCommentId (before ++ c :: after) = some c.id) ∧
    getCommentId
        [⟨1, "alice", "hi"⟩, ⟨2, botLogin, "old"⟩, ⟨3, botLogin, "older"⟩] = some 2 := by
  refine ⟨getCommentId_eq_none, getCommentId_first, ?_⟩
  decide

/-- Witness for C3: the locator theorem applied at a concrete one-element
prefix of non-bot comments. -/
theorem comment_locator_first_bot_witness :
    getCommentId ([⟨7, "alice", "x"⟩] ++ ⟨9, botLogin, "y"⟩ :: [⟨5, botLogin, "z"⟩]) =
      some 9 := by
  apply comment_locator_first_bot.2.1 [⟨7, "alice", "x"⟩] ⟨9, botLogin, "y"⟩ [⟨5, botLogin, "z"⟩]
  · intro c hc
    simp at hc
    subst hc
    decide
  · rfl

/-! ## The Comment Publisher as a transformer of the host comment thread

`replaceComment` (src/index.ts lines 40-52) either updates the located comment
(`updateComment`) or appends a new bot-authored comment (`createComment`).
JavaScript truthiness on `commentId ? update : create` means a located
identifier equal to `0` would also take the create branch, so the embedding
tests `cid ≠ 0` explicitly. -/

/-- The host-side effect of `updateComment`: set the body of the comment with
the given identifier. -/
def updateById (cid : Nat) (b : String) (comments : List Comment) : List Comment :=
  comments.map fun c => if c.id = cid then { c with body := b } else c

/-- One full `replaceComment` run (src/index.ts lines 40-52) against the
comment thread of the target resource: locate a prior bot comment via
`getCommentId`; if one is found (and its id is truthy) update it with the new
body, otherwise create a new bot-authored comment, whose host-assigned
identifier is `freshId`. -/
def runOnce (comments : List Comment) (b : String) (freshId : Nat) : List Comment :=
  match getCommentId comments with
  | some cid =>
      if cid ≠ 0 then updateById cid b comments
      else comments ++ [⟨freshId, botLogin, b⟩]
  | none => comments ++ [⟨freshId, botLogin, b⟩]

theorem runOnce_of_none (comments : List Comment) (b : String) (f : Nat)
    (h : getCommentId comments = none) :
    runOnce comments b f = comments ++ [⟨f, botLogin, b⟩] := by
  unfold runOnce
  rw [h]

theorem runOnce_of_some (comments : List Comment) (b : String) (f cid : Nat)
    (h : getCommentId comments = some cid) (h0 : cid ≠ 0) :
    runOnce comments b f = updateById cid b comments := by
  unfold runOnce
  rw [h]
  simp [h0]

theorem filter_updateById (cid : Nat) (b : String) (comments : List Comment) :
    (updateById cid b comments).filter isBot =
      (comments.filter isBot).map fun c => if c.id = cid then { c with body := b } else c := by
  unfold updateById
  rw [List.filter_map]
  congr 1
  apply List.filter_congr
  intro c _
  by_cases h : c.id = cid <;> simp [h, isBot]

theorem getCommentId_updateById (cid : Nat) (b : String) (comments : List Comment) :
    getCommentId (updateById cid b comments) = getCommentId comments := by
  rw [getCommentId_eq_head, getCommentId_eq_head, filter_updateById]
  cases h : comments.filter isBot with
  | nil => simp
  | cons c tl =>
    simp only [List.map_cons, List.head?, Option.map]
    by_cases hc : c.id = cid <;> simp [hc]

theorem bot_state_of_filter_single (s : List Comment) (x : Comment) (b : String)
    (hx : s.filter isBot = [x]) (hb : x.body = b) :
    (s.filter isBot).length ≤ 1 ∧ ∀ c ∈ s, isBot c → c.body = b := by
  constructor
  · rw [hx]; simp
  · intro c hc hbot
    have hmem : c ∈ s.filter isBot := List.mem_filter.mpr ⟨hc, hbot⟩
    rw [hx] at hmem
    simp at hmem
    subst hmem
    exact hb

/-- C1: running the full pipeline twice against the same target resource with
the same input produces at most one bot-authored comment after both runs, and
the final body of that comment equals the body constructed by the second run
(the second run locates the comment created by the first run and updates it
instead of creating a new one). Hypotheses: the thread starts with at most one
bot-authored comment, and the host assigns only nonzero comment identifiers. -/
theorem idempotent_two_runs (comments : List Comment) (b : String) (f1 f2 : Nat)
    (hids : ∀ c ∈ comments, c.id ≠ 0)
    (hbots : (comments.filter isBot).length ≤ 1) (hf1 : f1 ≠ 0) :
    ((runOnce (runOnce comments b f1) b f2).filter isBot).length ≤ 1 ∧
      ∀ c ∈ runOnce (runOnce comments b f1) b f2, isBot c → c.body = b := by
  have hbotnew : isBot ⟨f1, botLogin, b⟩ = true := by simp [isBot]
  cases hcid : getCommentId comments with
  | none =>
    have hfe : comments.filter isBot = [] := (getCommentId_none_iff comments).mp hcid
    have hs1 : runOnce comments b f1 = comments ++ [⟨f1, botLogin, b⟩] :=
      runOnce_of_none comments b f1 hcid
    have hfs1 : (runOnce comments b f1).filter isBot = [⟨f1, botLogin, b⟩] := by
      rw [hs1, List.filter_append, hfe, List.filter_cons]
      simp [hbotnew]
    have hcid1 : getCommentId (runOnce comments b f1) = some f1 := by
      rw [getCommentId_eq_head, hfs1]; rfl
    rw [runOnce_of_some _ b f2 f1 hcid1 hf1]
    apply bot_state_of_filter_single _ ⟨f1, botLogin, b⟩
    · rw [filter_updateById, hfs1]
      simp
    · rfl
  | some cid =>
    have hne : comments.filter isBot ≠ [] := by
      intro h
      rw [(getCommentId_none_iff comments).mpr h] at hcid
      exact Option.noConfusion hcid
    have hlen : (comments.filter isBot).length = 1 := by
      have := List.length_pos.mpr hne
      omega
    obtain ⟨c0, hc0⟩ := List.length_eq_one.mp hlen
    have hcid' : cid = c0.id := by
      rw [getCommentId_eq_head, hc0] at hcid
      simp [List.head?] at hcid
      omega
    have hc0mem : c0 ∈ comments :=
      (List.mem_filter.mp (hc0 ▸ List.mem_cons_self c0 [])).1
    have hcid0 : cid ≠ 0 := hcid' ▸ hids c0 hc0mem
    have hs1 : runOnce comments b f1 = updateById cid b comments :=
      runOnce_of_some comments b f1 cid hcid hcid0
    have hfs1 : (runOnce comments b f1).filter isBot = [{ c0 with body := b }] := by
      rw [hs1, filter_updateById, hc0]
      simp [hcid']
    have hcid1 : getCommentId (runOnce comments b f1) = some cid := by
      rw [hs1, getCommentId_updateById]
      exact hcid
    rw [runOnce_of_some _ b f2 cid hcid1 hcid0]
    apply bot_state_of_filter_single _ { c0 with body := b }
    · rw [filter_updateById, hfs1]
      simp [hcid']
    · rfl

/-- Witness for C1: two runs against a thread holding a single comment by
alice leave exactly one bot-authored comment, whose body is the second run's
body. -/
theorem idempotent_two_runs_witness :
    ((runOnce (runOnce [⟨1, "alice", "hi"⟩] "B" 5) "B" 6).filter isBot).length ≤ 1 ∧
      ∀ c ∈ runOnce (runOnce [⟨1, "alice", "hi"⟩] "B" 5) "B" 6, isBot c → c.body = "B" :=
  idempotent_two_runs [⟨1, "alice", "hi"⟩] "B" 5 6 (by decide) (by decide) (by decide)

/-! ## Host-API call traces -/

/-- The repository coordinates spread into every host-API call
(`...repoOptions` in src/index.ts); taken from the ambient context
(`github.context.repo`). -/
structure RepoOptions where
  owner : String
  repo : String
  deriving DecidableEq, Repr

/-- One host-API call, as issued by `getCommentId` / `replaceComment`
(src/index.ts lines 26, 50, 51). -/
inductive ApiCall where
  | listComments (owner repo : String) (issueNumber : Nat)
  | createComment (owner repo : String) (issueNumber : Nat) (body : String)
  | updateComment (owner repo : String) (commentId : Nat) (body : String)
  deriving DecidableEq, Repr

/-- Whether a call mutates host state (create or update, not list). -/
def isWrite : ApiCall → Bool
  | .listComments _ _ _ => false
  | .createComment _ _ _ _ => true
  | .updateComment _ _ _ _ => true

/-- The write calls of a trace. -/
def writeCalls (l : List ApiCall) : List ApiCall := l.filter isWrite

/-- The trace of host-API calls issued by one `replaceComment` run
(src/index.ts lines 40-52): the `listComments` call made by `getCommentId`,
then either `updateComment` on the located (truthy) identifier or
`createComment` on the target resource. -/
def replaceCommentTrace (ro : RepoOptions) (requestId : Nat) (message : String)
    (comments : List Comment) : List ApiCall :=
  ApiCall.listComments ro.owner ro.repo requestId ::
    (match getCommentId comments with
     | some cid =>
        if cid ≠ 0 then [ApiCall.updateComment ro.owner ro.repo cid message]
        else [ApiCall.createComment ro.owner ro.repo requestId message]
     | none => [ApiCall.createComment ro.owner ro.repo requestId message])

/-- C4: `replaceComment` issues exactly one host-API write call: an
`updateComment` call with the located comment identifier and the new body when
a prior bot comment was located, and otherwise a `createComment` call on the
target resource with the new body; never both. Hypothesis: the host assigns
only nonzero comment identifiers. -/
theorem publisher_exactly_one_write (ro : RepoOptions) (requestId : Nat)
    (message : String) (comments : List Comment)
    (hids : ∀ c ∈ comments, c.id ≠ 0) :
    (writeCalls (replaceCommentTrace ro requestId message comments)).length = 1 ∧
    (∀ cid, getCommentId comments = some cid →
      writeCalls (replaceCommentTrace ro requestId message comments) =
        [ApiCall.updateComment ro.owner ro.repo cid message]) ∧
    (getCommentId comments = none →
      writeCalls (replaceCommentTrace ro requestId message comments) =
        [ApiCall.createComment ro.owner ro.repo requestId message]) := by
  cases hcid : getCommentId comments with
  | none =>
    refine ⟨?_, ?_, ?_⟩ <;>
      simp [writeCalls, replaceCommentTrace, hcid, isWrite, List.filter]
  | some cid =>
    have hcid0 : cid ≠ 0 := by
      obtain ⟨c, hc, hcidc, _⟩ := getCommentId_mem comments cid hcid
      exact hcidc ▸ hids c hc
    refine ⟨?_, ?_, ?_⟩ <;>
      simp [writeCalls, replaceCommentTrace, hcid, hcid0, isWrite, List.filter]

/-- Witness for C4: with a prior bot comment of id 42 on the thread, the
publisher's write trace is exactly one `updateComment` call with id 42. -/
theorem publisher_exactly_one_write_witness :
    writeCalls (replaceCommentTrace ⟨"o", "r"⟩ 9 "B" [⟨42, botLogin, "old"⟩]) =
      [ApiCall.updateComment "o" "r" 42 "B"] :=
  (publisher_exactly_one_write ⟨"o", "r"⟩ 9 "B" [⟨42, botLogin, "old"⟩]
    (by decide)).2.1 42 (by decide)

/-! ## Base-10 integers as strings

`buildConfigOptions` stringifies the resolved candidate with a template
literal and hands it to `toInt` (src/index.ts line 84). The embedding spells
out both directions: `intToString10` is the base-10 rendering a template
literal performs on an integer, and `parseInt10` the base-10 reading that the
spec requires of `toInt` ("coerced to a base-10 integer; fails ... if the
candidate is not representable as an integer"). -/

/-- The character of a single decimal digit. -/
def digitChar (n : Nat) : Char :=
  match n with
  | 0 => '0' | 1 => '1' | 2 => '2' | 3 => '3' | 4 => '4'
  | 5 => '5' | 6 => '6' | 7 => '7' | 8 => '8' | _ => '9'

/-- The base-10 digit list of a natural number, most significant first. -/
def natToDigits (n : Nat) : List Char :=
  if _h : n < 10 then [digitChar n]
  else natToDigits (n / 10) ++ [digitChar (n % 10)]
  termination_by n
  decreasing_by exact Nat.div_lt_self (by omega) (by omega)

/-- Base-10 rendering of an integer, as a JavaScript template literal
produces it: an optional minus sign, then the digits. -/
def intToString10 (i : Int) : String :=
  if i < 0 then String.mk ('-' :: natToDigits i.natAbs) else String.mk (natToDigits i.toNat)

/-- Whether a character is a decimal digit. -/
def isDigitC (c : Char) : Bool := 48 ≤ c.toNat && c.toNat ≤ 57

/-- One step of base-10 accumulation; fails on a non-digit character. -/
def digitStep (acc : Option Nat) (c : Char) : Option Nat :=
  acc.bind fun a => if isDigitC c then some (a * 10 + (c.toNat - 48)) else none

/-- Strict base-10 reading of a nonempty all-digit character list. -/
def parseNatDigits (l : List Char) : Option Nat :=
  if l.isEmpty then none else l.foldl digitStep (some 0)

/-- Strict base-10 reading of a character list as an integer: an optional
leading minus sign, then a nonempty run of digits and nothing else. -/
def parseIntDigits (l : List Char) : Option Int :=
  match l with
  | [] => none
  | c :: rest =>
      if c = '-' then (parseNatDigits rest).map (fun n : Nat => -(n : Int))
      else (parseNatDigits (c :: rest)).map (fun n : Nat => (n : Int))

/-- Strict base-10 reading of a string as an integer. -/
def parseInt10 (s : String) : Option Int := parseIntDigits s.data

theorem digitChar_spec (n : Nat) (h : n < 10) :
    isDigitC (digitChar n) = true ∧ (digitChar n).toNat - 48 = n := by
  interval_cases n <;> exact ⟨by decide, by decide⟩

theorem digitStep_digit (a n : Nat) (h : n < 10) :
    digitStep (some a) (digitChar n) = some (a * 10 + n) := by
  obtain ⟨h1, h2⟩ := digitChar_spec n h
  simp [digitStep, h1, h2]

theorem natToDigits_ne_nil (n : Nat) : natToDigits n ≠ [] := by
  rw [natToDigits]
  split <;> simp

theorem natToDigits_all_digits (n : Nat) : ∀ c ∈ natToDigits n, isDigitC c = true := by
  induction n using Nat.strong_induction_on with
  | _ n ih =>
    intro c hc
    rw [natToDigits] at hc
    by_cases h : n < 10
    · rw [dif_pos h] at hc
      simp at hc
      exact hc ▸ (digitChar_spec n h).1
    · rw [dif_neg h] at hc
      rcases List.mem_append.mp hc with hl | hr
      · exact ih (n / 10) (Nat.div_lt_self (by omega) (by omega)) c hl
      · simp at hr
        exact hr ▸ (digitChar_spec (n % 10) (Nat.mod_lt n (by omega))).1

theorem foldl_digitStep_natToDigits (n : Nat) :
    ∀ a : Nat, (natToDigits n).foldl digitStep (some a) =
      some (a * 10 ^ (natToDigits n).length + n) := by
  induction n using Nat.strong_induction_on with
  | _ n ih =>
    intro a
    rw [natToDigits]
    by_cases h : n < 10
    · rw [dif_pos h]
      simp [List.foldl, digitStep_digit a n h]
    · rw [dif_neg h]
      rw [List.foldl_append, ih (n / 10) (Nat.div_lt_self (by omega) (by omega)) a]
      have hmod : n % 10 < 10 := Nat.mod_lt n (by omega)
      simp only [List.foldl, digitStep_digit _ (n % 10) hmod,
        List.length_append, List.length_cons, List.length_nil]
      congr 1
      have hdm : n / 10 * 10 + n % 10 = n := by omega
      calc (a * 10 ^ (natToDigits (n / 10)).length + n / 10) * 10 + n % 10
          = a * (10 ^ (natToDigits (n / 10)).length * 10) + (n / 10 * 10 + n % 10) := by ring
        _ = a * 10 ^ ((natToDigits (n / 10)).length + 1) + n := by rw [hdm, pow_succ]

theorem parseNatDigits_natToDigits (n : Nat) :
    parseNatDigits (natToDigits n) = some n := by
  unfold parseNatDigits
  rw [if_neg (by simp [List.isEmpty_iff, natToDigits_ne_nil])]
  rw [foldl_digitStep_natToDigits n 0]
  simp

theorem parseIntDigits_neg (l : List Char) :
    parseIntDigits ('-' :: l) = (parseNatDigits l).map (fun n : Nat => -(n : Int)) := rfl

theorem parseIntDigits_no_sign (c : Char) (l : List Char) (h : ¬ (c = '-')) :
    parseIntDigits (c :: l) = (parseNatDigits (c :: l)).map (fun n : Nat => (n : Int)) := by
  simp only [parseIntDigits]
  rw [if_neg h]

theorem parseInt10_intToString10 (i : Int) : parseInt10 (intToString10 i) = some i := by
  unfold parseInt10 intToString10
  by_cases h : i < 0
  · rw [if_pos h]
    show parseIntDigits ('-' :: natToDigits i.natAbs) = some i
    rw [parseIntDigits_neg, parseNatDigits_natToDigits, Option.map_some']
    congr 1
    omega
  · rw [if_neg h]
    show parseIntDigits (natToDigits i.toNat) = some i
    cases hnd : natToDigits i.toNat with
    | nil => exact absurd hnd (natToDigits_ne_nil i.toNat)
    | cons c rest =>
      have hdig : isDigitC c = true :=
        natToDigits_all_digits i.toNat c (hnd ▸ List.mem_cons_self c rest)
      have hcm : ¬ (c = '-') := by
        intro hc
        rw [hc] at hdig
        exact absurd hdig (by decide)
      rw [parseIntDigits_no_sign c rest hcm, ← hnd, parseNatDigits_natToDigits,
        Option.map_some']
      congr 1
      omega

/-! ## Config resolution (`buildConfigOptions`, src/index.ts lines 71-92)

The `||`-merges operate on raw JavaScript values, so the embedding keeps the
untyped shape of a candidate: a number or a string, with JavaScript
truthiness (`0` and `""` are falsy). -/

/-- An untyped JavaScript value as it can appear as a `requestId` candidate:
a number or a string (a batch file may supply a numeric string). -/
inductive JVal where
  | num (n : Int)
  | str (s : String)
  deriving DecidableEq, Repr

/-- JavaScript truthiness of a candidate value: `0` and `""` are falsy. -/
def JVal.truthy : JVal → Bool
  | .num n => n ≠ 0
  | .str s => s ≠ ""

/-- What a JavaScript template literal renders the value as
(`` `${requestId}` `` in src/index.ts line 84). -/
def JVal.render : JVal → String
  | .num n => intToString10 n
  | .str s => s

/-- JavaScript `a || b` on an optional value `a` (an absent field is
`undefined`, which is falsy) against a present value tail `b`. -/
def jsOr (a b : Option JVal) : Option JVal :=
  match a with
  | some v => if v.truthy then some v else b
  | none => b

/-- JavaScript `a || b` where both sides are strings and an absent `a` is
`undefined`: the explicit value wins only when it is truthy (non-empty). -/
def jsOrStr (a : Option String) (b : String) : String :=
  match a with
  | some s => if s = "" then b else s
  | none => b

/-- A partial configuration, as a batch-file entry supplies it: any subset of
the descriptor fields (`Partial<ConfigOptions>` flattened over its optional
nested objects). -/
structure PartialConfigOptions where
  theme : Option String := none
  layout : Option String := none
  requestId : Option JVal := none
  deriving DecidableEq, Repr

/-- The ambient execution context plus single-run inputs read by
`buildConfigOptions` and `processComment`: the action inputs (`getProperty`),
the pull-request number and repository of `github.context`, the triggering
commit hash, and the rendering endpoint URL. -/
structure Env where
  themeInput : Option String
  themeDefault : String
  layoutInput : Option String
  layoutDefault : String
  requestIdInput : Option String
  prNumber : Option Int
  owner : String
  repo : String
  sha : String
  endpointUrl : String
  deriving DecidableEq, Repr

/-- Modelled from the spec: `getProperty` (src/utils/properties, not under
src/) reads a named single-run action input; the GitHub Actions runtime
substitutes the ambient default declared for the input when the caller sets
none, so the read yields the single-run input when present and the ambient
default otherwise. -/
def getPropertyOr (input : Option String) (default : String) : String :=
  input.getD default

/-- The resolved `styleOptions.theme` of `buildConfigOptions` (src/index.ts
line 72): `options.styleOptions?.theme || getProperty('theme')`. -/
def resolveTheme (env : Env) (p : PartialConfigOptions) : String :=
  jsOrStr p.theme (getPropertyOr env.themeInput env.themeDefault)

/-- The resolved `styleOptions.layout` of `buildConfigOptions` (src/index.ts
line 73): `options.styleOptions?.layout || getProperty('layout')`. -/
def resolveLayout (env : Env) (p : PartialConfigOptions) : String :=
  jsOrStr p.layout (getPropertyOr env.layoutInput env.layoutDefault)

/-- The `requestId` candidate of `buildConfigOptions` (src/index.ts lines
74-77): `options.resourceOptions?.requestId || getProperty('requestId') ||
github.context.payload.pull_request?.number`, with JavaScript truthiness at
each `||`. The `requestId` input is a string when set; the pull-request
number is a number. -/
def resolveCandidate (env : Env) (p : PartialConfigOptions) : Option JVal :=
  jsOr p.requestId (jsOr (env.requestIdInput.map JVal.str) (env.prNumber.map JVal.num))

/-- Modelled from the spec: `toInt` (src/utils/commons, not under src/)
together with the validation the spec requires of `requestId` resolution —
the candidate, rendered to a string, is coerced to a base-10 integer and
"must resolve to a strictly positive integer; unresolved or non-numeric
values are a validation failure" (`ValueError`, carried here as `.error`
with its message). -/
def toIntValidated (s : String) : Except String Nat :=
  match parseInt10 s with
  | none => Except.error ("Invalid pull request identifier: " ++ s)
  | some i =>
      if 0 < i then Except.ok i.toNat
      else Except.error ("Invalid pull request identifier: " ++ s)

/-- The resolved style options of a descriptor. -/
structure StyleOptions where
  theme : String
  layout : String
  deriving DecidableEq, Repr

/-- The resolved resource options of a descriptor. -/
structure ResourceOptions where
  requestId : Nat
  deriving DecidableEq, Repr

/-- A fully resolved operation descriptor (`ConfigOptions`). -/
structure ConfigOptions where
  styleOptions : StyleOptions
  resourceOptions : ResourceOptions
  repoOptions : RepoOptions
  deriving DecidableEq, Repr

/-- `buildConfigOptions` (src/index.ts lines 71-92): merge the partial
configuration against the single-run inputs and ambient context with `||`,
throw `ValueError` when no tier yields a `requestId` candidate
(`isNullOrUndefined`), coerce the candidate via `toInt` on its rendered
string, and take `repoOptions` from the ambient context. -/
def buildConfigOptions (env : Env) (p : PartialConfigOptions) :
    Except String ConfigOptions :=
  let theme := resolveTheme env p
  let layout := resolveLayout env p
  match resolveCandidate env p with
  | none => Except.error "Invalid pull request identifier: undefined"
  | some v =>
      match toIntValidated v.render with
      | Except.error e => Except.error e
      | Except.ok n =>
          Except.ok
            { styleOptions := { theme := theme, layout := layout }
              resourceOptions := { requestId := n }
              repoOptions := { owner := env.owner, repo := env.repo } }

theorem buildConfigOptions_eq (env : Env) (p : PartialConfigOptions) :
    buildConfigOptions env p =
      match resolveCandidate env p with
      | none => Except.error "Invalid pull request identifier: undefined"
      | some v =>
          match toIntValidated v.render with
          | Except.error e => Except.error e
          | Except.ok n =>
              Except.ok
                { styleOptions := { theme := resolveTheme env p, layout := resolveLayout env p }
                  resourceOptions := { requestId := n }
                  repoOptions := { owner := env.owner, repo := env.repo } } := rfl

theorem buildConfigOptions_of_none (env : Env) (p : PartialConfigOptions)
    (h : resolveCandidate env p = none) :
    buildConfigOptions env p = Except.error "Invalid pull request identifier: undefined" := by
  rw [buildConfigOptions_eq, h]

theorem buildConfigOptions_of_cand (env : Env) (p : PartialConfigOptions) (v : JVal)
    (h : resolveCandidate env p = some v) :
    buildConfigOptions env p =
      match toIntValidated v.render with
      | Except.error e => Except.error e
      | Except.ok n =>
          Except.ok
            { styleOptions := { theme := resolveTheme env p, layout := resolveLayout env p }
              resourceOptions := { requestId := n }
              repoOptions := { owner := env.owner, repo := env.repo } } := by
  rw [buildConfigOptions_eq, h]

theorem toIntValidated_of_parse (s : String) (i : Int) (h : parseInt10 s = some i) :
    toIntValidated s =
      if 0 < i then Except.ok i.toNat
      else Except.error ("Invalid pull request identifier: " ++ s) := by
  unfold toIntValidated
  rw [h]

theorem toIntValidated_of_parse_none (s : String) (h : parseInt10 s = none) :
    toIntValidated s = Except.error ("Invalid pull request identifier: " ++ s) := by
  unfold toIntValidated
  rw [h]

theorem toIntValidated_num (n : Int) :
    toIntValidated (JVal.num n).render =
      if 0 < n then Except.ok n.toNat
      else Except.error ("Invalid pull request identifier: " ++ intToString10 n) := by
  show toIntValidated (intToString10 n) = _
  exact toIntValidated_of_parse (intToString10 n) n (parseInt10_intToString10 n)

/-- C2: if the `requestId` candidate found by resolution is non-integer,
negative or zero, or no tier yields any candidate, `buildConfigOptions` fails
with `ValueError`; for every strictly positive integer candidate, including
one given as a numeric string, resolution succeeds and the resolved
`resourceOptions.requestId` equals that integer. -/
theorem requestId_validation (env : Env) (p : PartialConfigOptions) :
    (resolveCandidate env p = none →
      buildConfigOptions env p = Except.error "Invalid pull request identifier: undefined") ∧
    (∀ n : Int, resolveCandidate env p = some (JVal.num n) → n ≤ 0 →
      ∃ e, buildConfigOptions env p = Except.error e) ∧
    (∀ s : String, resolveCandidate env p = some (JVal.str s) → parseInt10 s = none →
      ∃ e, buildConfigOptions env p = Except.error e) ∧
    (∀ (s : String) (i : Int), resolveCandidate env p = some (JVal.str s) →
      parseInt10 s = some i → i ≤ 0 →
      ∃ e, buildConfigOptions env p = Except.error e) ∧
    (∀ n : Int, 0 < n → resolveCandidate env p = some (JVal.num n) →
      ∃ cfg, buildConfigOptions env p = Except.ok cfg ∧
        (cfg.resourceOptions.requestId : Int) = n) ∧
    (∀ (s : String) (i : Int), 0 < i → resolveCandidate env p = some (JVal.str s) →
      parseInt10 s = some i →
      ∃ cfg, buildConfigOptions env p = Except.ok cfg ∧
        (cfg.resourceOptions.requestId : Int) = i) := by
  refine ⟨?_, ?_, ?_, ?_, ?_, ?_⟩
  · exact buildConfigOptions_of_none env p
  · intro n hc hn
    rw [buildConfigOptions_of_cand env p _ hc, toIntValidated_num, if_neg (by omega)]
    exact ⟨_, rfl⟩
  · intro s hc hp
    rw [buildConfigOptions_of_cand env p _ hc]
    have hv : toIntValidated (JVal.str s).render =
        Except.error ("Invalid pull request identifier: " ++ s) :=
      toIntValidated_of_parse_none s hp
    rw [hv]
    exact ⟨_, rfl⟩
  · intro s i hc hp hi
    rw [buildConfigOptions_of_cand env p _ hc]
    have hv : toIntValidated (JVal.str s).render =
        if 0 < i then Except.ok i.toNat
        else Except.error ("Invalid pull request identifier: " ++ s) :=
      toIntValidated_of_parse s i hp
    rw [hv, if_neg (by omega)]
    exact ⟨_, rfl⟩
  · intro n hn hc
    rw [buildConfigOptions_of_cand env p _ hc, toIntValidated_num, if_pos hn]
    refine ⟨_, rfl, ?_⟩
    show ((n.toNat : Nat) : Int) = n
    omega
  · intro s i hi hc hp
    rw [buildConfigOptions_of_cand env p _ hc]
    have hv : toIntValidated (JVal.str s).render =
        if 0 < i then Except.ok i.toNat
        else Except.error ("Invalid pull request identifier: " ++ s) :=
      toIntValidated_of_parse s i hp
    rw [hv, if_pos hi]
    refine ⟨_, rfl, ?_⟩
    show ((i.toNat : Nat) : Int) = i
    omega

/-- Witness for C2: a partial configuration giving `requestId` as the numeric
string `"7"` resolves successfully to the integer 7. -/
theorem requestId_validation_witness :
    ∃ cfg,
      buildConfigOptions
          ⟨none, "light", none, "classic", none, none, "o", "r", "abc123", "<endpoint>"⟩
          { requestId := some (JVal.str "7") } = Except.ok cfg ∧
        (cfg.resourceOptions.requestId : Int) = 7 :=
  (requestId_validation
      ⟨none, "light", none, "classic", none, none, "o", "r", "abc123", "<endpoint>"⟩
      { requestId := some (JVal.str "7") }).2.2.2.2.2 "7" 7
    (by decide) (by decide) (by decide)

/-- An environment whose single-run theme input is `"dark"`, used to separate
the precedence tiers on concrete inputs. -/
def envStyle : Env :=
  { themeInput := some "dark", themeDefault := "light"
    layoutInput := none, layoutDefault := "classic"
    requestIdInput := none, prNumber := some 5
    owner := "o", repo := "r", sha := "abc123", endpointUrl := "<endpoint>" }

/-- Counterexample to C6 as stated: the partial configuration explicitly sets
`styleOptions.theme` to the empty string, yet resolution yields the single-run
input `"dark"` instead of that explicit value — the `||`-merge drops a falsy
explicit value. -/
theorem explicit_theme_counterexample :
    ({ theme := some "", requestId := some (JVal.num 5) } :
        PartialConfigOptions).theme = some "" ∧
      buildConfigOptions envStyle { theme := some "", requestId := some (JVal.num 5) } =
        Except.ok
          { styleOptions := { theme := "dark", layout := "classic" }
            resourceOptions := { requestId := 5 }
            repoOptions := { owner := "o", repo := "r" } } := by
  refine ⟨rfl, ?_⟩
  rw [buildConfigOptions_of_cand envStyle
      { theme := some "", requestId := some (JVal.num 5) } (JVal.num 5) rfl,
    toIntValidated_num, if_pos (by norm_num)]
  rfl

/-- C6 (amended): with `styleOptions.theme` unset, resolution yields the
single-run theme input when present and otherwise the ambient default; an
explicit *non-empty* `styleOptions.theme` wins over both (an explicit empty
string falls through instead, see the `||`-merge); likewise for layout; and a
successfully built descriptor carries exactly these resolved values. -/
theorem theme_layout_precedence (env : Env) (p : PartialConfigOptions) :
    (p.theme = none → env.themeInput = none → resolveTheme env p = env.themeDefault) ∧
    (∀ s, p.theme = none → env.themeInput = some s → resolveTheme env p = s) ∧
    (∀ t, p.theme = some t → t ≠ "" → resolveTheme env p = t) ∧
    (p.layout = none → env.layoutInput = none → resolveLayout env p = env.layoutDefault) ∧
    (∀ s, p.layout = none → env.layoutInput = some s → resolveLayout env p = s) ∧
    (∀ t, p.layout = some t → t ≠ "" → resolveLayout env p = t) ∧
    (∀ cfg, buildConfigOptions env p = Except.ok cfg →
      cfg.styleOptions.theme = resolveTheme env p ∧
        cfg.styleOptions.layout = resolveLayout env p) := by
  refine ⟨?_, ?_, ?_, ?_, ?_, ?_, ?_⟩
  · intro h1 h2
    simp [resolveTheme, jsOrStr, getPropertyOr, h1, h2]
  · intro s h1 h2
    simp [resolveTheme, jsOrStr, getPropertyOr, h1, h2]
  · intro t h1 h2
    simp [resolveTheme, jsOrStr, h1, h2]
  · intro h1 h2
    simp [resolveLayout, jsOrStr, getPropertyOr, h1, h2]
  · intro s h1 h2
    simp [resolveLayout, jsOrStr, getPropertyOr, h1, h2]
  · intro t h1 h2
    simp [resolveLayout, jsOrStr, h1, h2]
  · intro cfg hcfg
    cases hcand : resolveCandidate env p with
    | none => rw [buildConfigOptions_of_none env p hcand] at hcfg; exact Except.noConfusion hcfg
    | some v =>
      rw [buildConfigOptions_of_cand env p v hcand] at hcfg
      cases hti : toIntValidated v.render with
      | error e => rw [hti] at hcfg; exact Except.noConfusion hcfg
      | ok n =>
        rw [hti] at hcfg
        have := Except.ok.inj hcfg
        rw [← this]
        exact ⟨rfl, rfl⟩

/-- Witness for C6 (amended): with theme unset and single-run input `"dark"`,
resolution yields `"dark"`. -/
theorem theme_layout_precedence_witness :
    resolveTheme envStyle { requestId := some (JVal.num 5) } = "dark" :=
  (theme_layout_precedence envStyle { requestId := some (JVal.num 5) }).2.1 "dark" rfl rfl

/-- C9: an explicit empty-string `styleOptions.theme` or `styleOptions.layout`,
or an explicit `resourceOptions.requestId` of `0`, is ignored by resolution,
which falls through to the next precedence tier (single-run input, then
ambient context): each field is merged with a logical-or on the raw value
rather than a presence check. -/
theorem falsy_explicit_falls_through (env : Env) (p : PartialConfigOptions) :
    (p.theme = some "" →
      resolveTheme env p = getPropertyOr env.themeInput env.themeDefault) ∧
    (p.layout = some "" →
      resolveLayout env p = getPropertyOr env.layoutInput env.layoutDefault) ∧
    (p.requestId = some (JVal.num 0) →
      resolveCandidate env p =
        jsOr (env.requestIdInput.map JVal.str) (env.prNumber.map JVal.num)) := by
  refine ⟨?_, ?_, ?_⟩ <;> intro h
  · simp [resolveTheme, jsOrStr, h]
  · simp [resolveLayout, jsOrStr, h]
  · simp [resolveCandidate, jsOr, h, JVal.truthy]

/-- Witness for C9: explicit `theme := ""`, `layout := ""` and
`requestId := 0` all fall through to the next tier on a concrete
environment. -/
theorem falsy_explicit_falls_through_witness :
    resolveTheme envStyle { theme := some "", layout := some "", requestId := some (JVal.num 0) } =
        getPropertyOr envStyle.themeInput envStyle.themeDefault ∧
      resolveLayout envStyle
          { theme := some "", layout := some "", requestId := some (JVal.num 0) } =
        getPropertyOr envStyle.layoutInput envStyle.layoutDefault ∧
      resolveCandidate envStyle
          { theme := some "", layout := some "", requestId := some (JVal.num 0) } =
        jsOr (envStyle.requestIdInput.map JVal.str) (envStyle.prNumber.map JVal.num) := by
  have h := falsy_explicit_falls_through envStyle
    { theme := some "", layout := some "", requestId := some (JVal.num 0) }
  exact ⟨h.1 rfl, h.2.1 rfl, h.2.2 rfl⟩

/-! ## Body construction and the per-entry pipeline (`processComment`,
`getOperationStatus`, `executeOperation`, `getOperationResult`,
src/index.ts lines 54-114) -/

/-- The comment body built by `processComment` (src/index.ts lines 58-61): the
image reference parameterized by theme and layout, joined with the attribution
line by a double newline. The endpoint URL comes from `profile.requestOptions.url`
(src/utils/profiles, not under src/), modelled from the spec as an opaque URL
carried in the environment; the commit hash is `github.context.sha`. -/
def buildMessage (url theme layout sha : String) : String :=
  String.intercalate "\n\n"
    ["![Styled Proverbs](" ++ url ++ "?theme=" ++ theme ++ "&layout=" ++ layout ++ ")",
     "Triggered by commit: " ++ sha]

/-- The body `processComment` constructs for a resolved descriptor. -/
def processMessage (env : Env) (cfg : ConfigOptions) : String :=
  buildMessage env.endpointUrl cfg.styleOptions.theme cfg.styleOptions.layout env.sha

/-- The host-API trace of `processComment` (src/index.ts lines 54-69): build
the message, then run `replaceComment` with it against the descriptor's
resource. -/
def processCommentTrace (env : Env) (cfg : ConfigOptions)
    (comments : List Comment) : List ApiCall :=
  replaceCommentTrace cfg.repoOptions cfg.resourceOptions.requestId
    (processMessage env cfg) comments

/-- The body a call carries, when it is a write call. -/
def callBody : ApiCall → Option String
  | .listComments _ _ _ => none
  | .createComment _ _ _ b => some b
  | .updateComment _ _ _ b => some b

/-- C5: for every resolved descriptor the published comment body equals the
image reference parameterized by theme and layout, a double newline, and the
attribution line with the ambient commit hash; every write call the pipeline
issues for the descriptor carries exactly this body; and on theme `"light"`,
layout `"classic"`, commit `"abc123"` the body is the exact expected string. -/
theorem comment_body_construction (env : Env) (cfg : ConfigOptions) :
    processMessage env cfg =
      "![Styled Proverbs](" ++ env.endpointUrl ++ "?theme=" ++ cfg.styleOptions.theme ++
        "&layout=" ++ cfg.styleOptions.layout ++ ")" ++ "\n\n" ++
        ("Triggered by commit: " ++ env.sha) ∧
    (∀ (comments : List Comment), ∀ call ∈ processCommentTrace env cfg comments,
      isWrite call = true → callBody call = some (processMessage env cfg)) ∧
    buildMessage "<endpoint>" "light" "classic" "abc123" =
      "![Styled Proverbs](<endpoint>?theme=light&layout=classic)\n\nTriggered by commit: abc123" := by
  refine ⟨rfl, ?_, rfl⟩
  intro comments call hmem hw
  unfold processCommentTrace replaceCommentTrace at hmem
  rcases List.mem_cons.mp hmem with hlist | hrest
  · rw [hlist] at hw
    exact absurd hw (by simp [isWrite])
  · cases hcid : getCommentId comments with
    | none =>
      rw [hcid] at hrest
      simp at hrest
      rw [hrest]
      rfl
    | some cid =>
      rw [hcid] at hrest
      by_cases h0 : cid = 0
      · simp [h0] at hrest
        rw [hrest]
        rfl
      · simp [h0] at hrest
        rw [hrest]
        rfl

/-- Witness for C5: the pipeline's single write call against an empty thread
carries the constructed body. -/
theorem comment_body_construction_witness :
    callBody
        (ApiCall.createComment "o" "r" 9
          (processMessage envStyle
            { styleOptions := { theme := "light", layout := "classic" }
              resourceOptions := { requestId := 9 }
              repoOptions := { owner := "o", repo := "r" } })) =
      some (processMessage envStyle
        { styleOptions := { theme := "light", layout := "classic" }
          resourceOptions := { requestId := 9 }
          repoOptions := { owner := "o", repo := "r" } }) :=
  (comment_body_construction envStyle
      { styleOptions := { theme := "light", layout := "classic" }
        resourceOptions := { requestId := 9 }
        repoOptions := { owner := "o", repo := "r" } }).2.1 []
    _ (by simp [processCommentTrace, replaceCommentTrace, getCommentId, List.filter])
    (by decide)

/-- Modelled from the spec: the batch source file collaborator behind
`isValidFile` (src/utils/validators) and `getConfigOptions` (src/utils/files),
neither under src/ — a partial map from source identifiers that name an
existing file with the recognized `.json` extension to the sequence of
partial configurations parsed from that file. -/
structure FileSystem where
  jsonFile : String → Option (List PartialConfigOptions)

/-- Modelled from the spec: `isValidFile(sourceData, '.json')` — whether the
source names an existing file with the recognized extension. -/
def isValidFile (fs : FileSystem) (sourceData : String) : Bool :=
  (fs.jsonFile sourceData).isSome

/-- Modelled from the spec: `getConfigOptions(sourceData)` — the sequence of
partial configuration objects parsed from the recognized file. -/
def getConfigOptions (fs : FileSystem) (sourceData : String) : List PartialConfigOptions :=
  (fs.jsonFile sourceData).getD []

/-- The Batch Expander of `getOperationResult` (src/index.ts lines 110-114):
parse the batch file when the source is a valid `.json` file, otherwise the
single-element batch holding one empty partial configuration (`[{}]`). -/
def getOperationResultParams (fs : FileSystem) (sourceData : String) :
    List PartialConfigOptions :=
  if isValidFile fs sourceData then getConfigOptions fs sourceData else [{}]

/-- C7: a source identifier that does not name an existing recognized file
expands to exactly the single-element sequence holding one empty partial
configuration, and a source naming an existing recognized file expands to the
sequence of partial configurations parsed from it. -/
theorem batch_expander (fs : FileSystem) (sourceData : String) :
    (fs.jsonFile sourceData = none →
      getOperationResultParams fs sourceData =
        [{ theme := none, layout := none, requestId := none }]) ∧
    (∀ ps, fs.jsonFile sourceData = some ps →
      getOperationResultParams fs sourceData = ps) := by
  constructor
  · intro h
    simp [getOperationResultParams, isValidFile, getConfigOptions, h]
  · intro ps h
    simp [getOperationResultParams, isValidFile, getConfigOptions, h]

/-- Witness for C7: on a file system with no recognized files, any source
expands to the singleton empty-partial batch. -/
theorem batch_expander_witness :
    getOperationResultParams ⟨fun _ => none⟩ "data.json" =
      [{ theme := none, layout := none, requestId := none }] :=
  (batch_expander ⟨fun _ => none⟩ "data.json").1 rfl

/-- The host-API trace of one batch entry's pipeline, `getOperationStatus`
(src/index.ts lines 94-98): resolution runs first and an exception aborts the
entry before any comment processing; a resolved descriptor runs
`processComment` against the thread of its target resource (`host` maps a
request id to that resource's comment list). -/
def getOperationStatusTrace (env : Env) (host : Nat → List Comment)
    (p : PartialConfigOptions) : List ApiCall :=
  match buildConfigOptions env p with
  | Except.error _ => []
  | Except.ok cfg => processCommentTrace env cfg (host cfg.resourceOptions.requestId)

/-- The host-API trace of `executeOperation` (src/index.ts lines 100-108):
every entry's pipeline is launched and runs to completion independently
(`Promise.all` of independently started promises), so the batch trace carries
every entry's calls. -/
def executeOperationTrace (env : Env) (host : Nat → List Comment)
    (ps : List PartialConfigOptions) : List ApiCall :=
  (ps.map (getOperationStatusTrace env host)).flatten

theorem getOperationStatusTrace_error (env : Env) (host : Nat → List Comment)
    (p : PartialConfigOptions) (e : String)
    (h : buildConfigOptions env p = Except.error e) :
    getOperationStatusTrace env host p = [] := by
  unfold getOperationStatusTrace
  rw [h]

/-- C10: an entry whose resolution fails with `ValueError` performs no
host-API call at all — no comment is listed, created or updated for that
descriptor, because `buildConfigOptions` runs to completion before any
comment processing begins. -/
theorem failed_resolution_no_calls (env : Env) (host : Nat → List Comment)
    (p : PartialConfigOptions) (e : String)
    (h : buildConfigOptions env p = Except.error e) :
    getOperationStatusTrace env host p = [] :=
  getOperationStatusTrace_error env host p e h

/-- Witness for C10: with no candidate tier available, the entry's pipeline
issues no call. -/
theorem failed_resolution_no_calls_witness :
    getOperationStatusTrace
        ⟨none, "light", none, "classic", none, none, "o", "r", "abc123", "<endpoint>"⟩
        (fun _ => []) {} = [] :=
  failed_resolution_no_calls
    ⟨none, "light", none, "classic", none, none, "o", "r", "abc123", "<endpoint>"⟩
    (fun _ => []) {} "Invalid pull request identifier: undefined"
    (buildConfigOptions_of_none _ {} rfl)

theorem writeCalls_replaceCommentTrace_length (ro : RepoOptions) (requestId : Nat)
    (message : String) (comments : List Comment) :
    (writeCalls (replaceCommentTrace ro requestId message comments)).length = 1 := by
  unfold writeCalls replaceCommentTrace
  cases getCommentId comments with
  | none => simp [isWrite, List.filter]
  | some cid =>
      by_cases h : cid = 0 <;> simp [h, isWrite, List.filter]

/-- C8: in a batch of two partial configurations with distinct `requestId`
values where one resolves successfully and the other fails validation with
`ValueError`, the batch orchestration still performs the successful entry's
publish call: the failing entry contributes no calls and the batch trace is
exactly the successful pipeline's trace, which contains its one write call. -/
theorem batch_independence (env : Env) (host : Nat → List Comment)
    (p1 p2 : PartialConfigOptions) (cfg : ConfigOptions) (e : String)
    (hd : p1.requestId ≠ p2.requestId)
    (h1 : buildConfigOptions env p1 = Except.ok cfg)
    (h2 : buildConfigOptions env p2 = Except.error e) :
    (writeCalls (getOperationStatusTrace env host p1)).length = 1 ∧
    executeOperationTrace env host [p1, p2] = getOperationStatusTrace env host p1 := by
  constructor
  · unfold getOperationStatusTrace
    rw [h1]
    exact writeCalls_replaceCommentTrace_length _ _ _ _
  · unfold executeOperationTrace
    rw [List.map_cons, List.map_cons, List.map_nil,
      getOperationStatusTrace_error env host p2 e h2]
    simp

/-- Witness for C8: a batch pairing the numeric-string entry `"7"` with the
non-numeric entry `"abc"` still performs the one write call of the first
entry. -/
theorem batch_independence_witness :
    (writeCalls (getOperationStatusTrace envStyle (fun _ => [])
        { requestId := some (JVal.str "7") })).length = 1 ∧
      executeOperationTrace envStyle (fun _ => [])
          [{ requestId := some (JVal.str "7") }, { requestId := some (JVal.str "abc") }] =
        getOperationStatusTrace envStyle (fun _ => [])
          { requestId := some (JVal.str "7") } :=
  batch_independence envStyle (fun _ => [])
    { requestId := some (JVal.str "7") } { requestId := some (JVal.str "abc") }
    { styleOptions := { theme := "dark", layout := "classic" }
      resourceOptions := { requestId := 7 }
      repoOptions := { owner := "o", repo := "r" } }
    "Invalid pull request identifier: abc"
    (by decide) rfl rfl

end Proverb
